import Mathlib

/-
Verification of the zepr.ts 2D scene-rendering runtime.

Shallow embedding of the geometry module (src/lib/geometry.ts and its
overload-based successor), the resources loader (loader.ts), the core frame
loop (core.ts) and the engine gesture state machine (engine.ts) over ℚ.
JavaScript numbers are modelled as rationals; the bitwise `>> 1` applied to
rectangle extents is modelled exactly (ToInt32 truncation followed by an
arithmetic shift).
-/

namespace Zepr

/-- A 2D point, as in geometry.ts `class Point`. -/
structure Point where
  x : ℚ
  y : ℚ
deriving DecidableEq, Repr

/-- A 2D vector, as in geometry.ts `class Vector`. -/
structure Vector where
  x : ℚ
  y : ℚ
deriving DecidableEq, Repr

/-- `Point.add(coordX, coordY)` (number overload): adds both coordinates. -/
def Point.add (p : Point) (coordX coordY : ℚ) : Point :=
  ⟨p.x + coordX, p.y + coordY⟩

/-- `Point.add(vect)` (Vector overload). -/
def Point.addVec (p : Point) (vect : Vector) : Point :=
  ⟨p.x + vect.x, p.y + vect.y⟩

/-- `Point.sub(coordX, coordY)` (number overload) from the overload-based
geometry source: the body executes `this._x += coordXOrVect; this._y += coordY`,
so it adds its arguments. -/
def Point.sub (p : Point) (coordX coordY : ℚ) : Point :=
  ⟨p.x + coordX, p.y + coordY⟩

/-- `Point.sub(vect)` (Vector overload): the body also uses `+=` on both
coordinates of the vector. -/
def Point.subVec (p : Point) (vect : Vector) : Point :=
  ⟨p.x + vect.x, p.y + vect.y⟩

/-- A rectangle, corner-based: `x`, `y` give the upper-left corner. -/
structure Rectangle where
  x : ℚ
  y : ℚ
  width : ℚ
  height : ℚ
deriving DecidableEq, Repr

/-- A circle: `x`, `y` give the center. -/
structure Circle where
  x : ℚ
  y : ℚ
  radius : ℚ
deriving DecidableEq, Repr

/-- `Rectangle.scale(ratio, centered)`: computes `newWidth = width * ratio` and
`newHeight = height * ratio`, optionally recenters, then executes
`this._width = newWidth; this._height *= newHeight` — note the `*=` on the
height assignment in the source. -/
def Rectangle.scale (r : Rectangle) (ratio : ℚ) (centered : Bool) : Rectangle :=
  let newWidth : ℚ := r.width * ratio
  let newHeight : ℚ := r.height * ratio
  let r1 : Rectangle :=
    if centered then
      { r with x := r.x - (newWidth - r.width) / 2, y := r.y - (newHeight - r.height) / 2 }
    else r
  { r1 with width := newWidth, height := r1.height * newHeight }

/-- `Circle.scale(newRadius)`: sets the radius to the argument. -/
def Circle.scale (c : Circle) (newRadius : ℚ) : Circle :=
  { c with radius := newRadius }

/-- `Rectangle.contains(p)`: closed-bounds containment. -/
def Rectangle.containsPt (r : Rectangle) (p : Point) : Bool :=
  decide (p.x ≥ r.x) && decide (p.x ≤ r.x + r.width) &&
    decide (p.y ≥ r.y) && decide (p.y ≤ r.y + r.height)

/-- `Circle.contains(p)`: squared distance from the center at most radius². -/
def Circle.containsPt (c : Circle) (p : Point) : Bool :=
  decide ((p.x - c.x) * (p.x - c.x) + (p.y - c.y) * (p.y - c.y) ≤ c.radius * c.radius)

/-- Truncation of a rational toward zero, the integer part produced by the
JavaScript ToInt32 abstract operation before wrapping. -/
def jsTrunc (q : ℚ) : ℤ :=
  q.num / q.den

/-- JavaScript ToInt32: truncate toward zero, then wrap into the signed 32-bit
range. -/
def jsToInt32 (q : ℚ) : ℤ :=
  (jsTrunc q + 2 ^ 31) % 2 ^ 32 - 2 ^ 31

/-- JavaScript `q >> 1`: ToInt32 followed by an arithmetic right shift, i.e.
flooring division by two, reinjected into the numeric domain. -/
def jsShr1 (q : ℚ) : ℚ :=
  ((Int.fdiv (jsToInt32 q) 2 : ℤ) : ℚ)

/-- `Rectangle.collides(shape)` for a Rectangle argument: four strict interval
comparisons, exactly as in the source. -/
def Rectangle.collidesRect (a r : Rectangle) : Bool :=
  decide (a.x < r.x + r.width) && decide (a.x + a.width > r.x) &&
    decide (a.y < r.y + r.height) && decide (a.y + a.height > r.y)

/-- `Rectangle.collides(shape)` for a Circle argument: trivial reject and accept
branches on the axis deltas, then the corner test exactly as written in the
source — the second product of the corner expression is
`(dy - (height >> 1)) * (dx - (height >> 1))`. -/
def Rectangle.collidesCircle (a : Rectangle) (c : Circle) : Bool :=
  let hw : ℚ := jsShr1 a.width
  let hh : ℚ := jsShr1 a.height
  let rcx : ℚ := a.x + hw
  let rcy : ℚ := a.y + hh
  let dx : ℚ := |c.x - rcx|
  let dy : ℚ := |c.y - rcy|
  if dx > hw + c.radius then false
  else if dy > hh + c.radius then false
  else if dx ≤ hw then true
  else if dy ≤ hh then true
  else decide ((dx - hw) * (dx - hw) + (dy - hh) * (dx - hh) ≤ c.radius * c.radius)

/-- Modelled from the spec: the rectangle–circle test of §4.2 with the
symmetric squared-distance corner branch
`(dx - halfWidth)² + (dy - halfHeight)² ≤ radius²`, every other branch as in
the source. Used to compare the source corner expression with the specified
one. -/
def Rectangle.collidesCircleSymm (a : Rectangle) (c : Circle) : Bool :=
  let hw : ℚ := jsShr1 a.width
  let hh : ℚ := jsShr1 a.height
  let rcx : ℚ := a.x + hw
  let rcy : ℚ := a.y + hh
  let dx : ℚ := |c.x - rcx|
  let dy : ℚ := |c.y - rcy|
  if dx > hw + c.radius then false
  else if dy > hh + c.radius then false
  else if dx ≤ hw then true
  else if dy ≤ hh then true
  else decide ((dx - hw) * (dx - hw) + (dy - hh) * (dy - hh) ≤ c.radius * c.radius)

/-- `Circle.collides(shape)` for a Circle argument: inclusive squared-distance
comparison against the squared sum of radii. -/
def Circle.collidesCircle (a c : Circle) : Bool :=
  decide ((a.x - c.x) * (a.x - c.x) + (a.y - c.y) * (a.y - c.y) ≤
    (a.radius + c.radius) * (a.radius + c.radius))

/-- `Circle.collides(shape)` for a Rectangle argument: delegates to the
rectangle side. -/
def Circle.collidesRect (c : Circle) (r : Rectangle) : Bool :=
  r.collidesCircle c

end Zepr

namespace Zepr

/-- Evaluation helper: truncation of an integer-valued rational is the
integer itself. -/
lemma jsTrunc_intCast (n : ℤ) : jsTrunc (n : ℚ) = n := by
  simp [jsTrunc]

/-- Evaluation helper: ToInt32 is the identity on integers inside the signed
32-bit range. -/
lemma jsToInt32_small (n : ℤ) (h1 : -2 ^ 31 ≤ n) (h2 : n < 2 ^ 31) :
    jsToInt32 (n : ℚ) = n := by
  simp only [jsToInt32, jsTrunc_intCast]
  omega

/-- Evaluation helper: `10 >> 1 = 5`. -/
lemma jsShr1_ten : jsShr1 (10 : ℚ) = 5 := by
  have h : ((10 : ℤ) : ℚ) = (10 : ℚ) := by norm_num
  rw [← h, jsShr1, jsToInt32_small 10 (by norm_num) (by norm_num)]
  decide

/-- Claim C1 counterexample: two rectangles sharing the full edge x = 10 are
reported as not colliding, because the rectangle–rectangle branch uses strict
comparisons; the claim asserts every exactly-touching pair collides. -/
theorem touching_rectangles_cex :
    Rectangle.collidesRect ⟨0, 0, 10, 10⟩ ⟨10, 0, 10, 10⟩ = false := by
  norm_num [Rectangle.collidesRect]

/-- Claim C1 (amended): the circle–circle comparison and the rectangle–circle
trivial-case comparisons are inclusive, so exactly-touching circles collide
and a circle at the exact trivial-case boundary distance of a rectangle
collides; but the rectangle–rectangle comparisons are strict, so rectangles
sharing an edge or a corner are reported as not colliding. -/
theorem collides_touching_amended :
    (∀ a c : Circle,
      (a.x - c.x) * (a.x - c.x) + (a.y - c.y) * (a.y - c.y) =
        (a.radius + c.radius) * (a.radius + c.radius) →
      a.collidesCircle c = true) ∧
    (∀ (r : Rectangle) (c : Circle), 0 ≤ c.radius →
      |c.x - (r.x + jsShr1 r.width)| = jsShr1 r.width + c.radius →
      |c.y - (r.y + jsShr1 r.height)| ≤ jsShr1 r.height →
      r.collidesCircle c = true) ∧
    (∀ a b : Rectangle, b.x = a.x + a.width → a.collidesRect b = false) := by
  refine ⟨?_, ?_, ?_⟩
  · intro a c h
    simp only [Circle.collidesCircle, decide_eq_true_eq]
    exact le_of_eq h
  · intro r c hr hdx hdy
    simp only [Rectangle.collidesCircle]
    split_ifs with h1 h2 h3
    · linarith
    · linarith
    · rfl
    · rfl
  · intro a b h
    have hlt : ¬ (b.x < a.x + a.width) := by
      rw [h]; exact lt_irrefl _
    simp [Rectangle.collidesRect, gt_iff_lt, hlt]

/-- Claim C1 witness: concrete instances of each amended conjunct — touching
circles collide, a circle at the exact rectangle trivial-case boundary
collides, edge-sharing rectangles do not. -/
theorem collides_touching_amended_witness :
    Circle.collidesCircle ⟨0, 0, 10⟩ ⟨16, 0, 6⟩ = true ∧
    Rectangle.collidesCircle ⟨0, 0, 10, 10⟩ ⟨12, 5, 2⟩ = true ∧
    Rectangle.collidesRect ⟨0, 0, 10, 10⟩ ⟨10, 0, 5, 5⟩ = false :=
  ⟨collides_touching_amended.1 ⟨0, 0, 10⟩ ⟨16, 0, 6⟩ (by norm_num),
   collides_touching_amended.2.1 ⟨0, 0, 10, 10⟩ ⟨12, 5, 2⟩ (by norm_num)
     (by norm_num [jsShr1_ten, abs_of_nonneg])
     (by norm_num [jsShr1_ten, abs_of_nonneg]),
   collides_touching_amended.2.2 ⟨0, 0, 10, 10⟩ ⟨10, 0, 5, 5⟩ (by norm_num)⟩

/-- Claim C2: the corner branch of the source computes the asymmetric product
`(dx - hw)² + (dy - hh) * (dx - hh)`, not the symmetric squared distance the
spec requires. At rectangle (0,0,10,10) and circle (11,14,4) the source
returns true while the specified symmetric corner test returns false, and the
true squared distance from the corner (10,10) to the circle center is
17 > 16 = radius². -/
theorem rect_circle_corner_asymmetric :
    Rectangle.collidesCircle ⟨0, 0, 10, 10⟩ ⟨11, 14, 4⟩ = true ∧
    Rectangle.collidesCircleSymm ⟨0, 0, 10, 10⟩ ⟨11, 14, 4⟩ = false ∧
    (11 - 10 : ℚ) * (11 - 10) + (14 - 10) * (14 - 10) > 4 * 4 := by
  refine ⟨?_, ?_, by norm_num⟩
  · norm_num [Rectangle.collidesCircle, jsShr1_ten, abs_of_nonneg]
  · norm_num [Rectangle.collidesCircleSymm, jsShr1_ten, abs_of_nonneg]

/-- Claim C3: `Rectangle.scale` multiplies the width by the ratio but, because
of the `*=` in the height assignment, sets the height to height² · ratio; at
ratio 2 a 2×3 rectangle becomes 4×18 instead of 4×6. `Circle.scale` sets the
radius to its argument for every circle. -/
theorem scale_semantics_eval :
    (∀ (r : Rectangle) (ratio : ℚ),
      (r.scale ratio false).width = r.width * ratio ∧
      (r.scale ratio false).height = r.height * (r.height * ratio)) ∧
    (∀ (c : Circle) (v : ℚ), (c.scale v).radius = v) ∧
    (Rectangle.scale ⟨0, 0, 2, 3⟩ 2 false).height = 18 ∧
    (18 : ℚ) ≠ 3 * 2 := by
  refine ⟨fun r ratio => ⟨rfl, rfl⟩, fun c v => rfl, ?_, by norm_num⟩
  norm_num [Rectangle.scale]

/-- Claim C7: the rectangle–rectangle collision test is symmetric in its two
arguments. -/
theorem rectangle_collides_symm (a b : Rectangle) :
    a.collidesRect b = b.collidesRect a := by
  rw [Bool.eq_iff_iff]
  simp only [Rectangle.collidesRect, Bool.and_eq_true, decide_eq_true_eq, gt_iff_lt]
  constructor
  · rintro ⟨⟨⟨h1, h2⟩, h3⟩, h4⟩
    exact ⟨⟨⟨h2, h1⟩, h4⟩, h3⟩
  · rintro ⟨⟨⟨h1, h2⟩, h3⟩, h4⟩
    exact ⟨⟨⟨h2, h1⟩, h4⟩, h3⟩

/-- Claim C10: `Point.sub` adds its arguments to the coordinates — both the
number overload and the vector overload coincide with the corresponding
`add` overloads. -/
theorem point_sub_adds (p : Point) (dx dy : ℚ) (v : Vector) :
    p.sub dx dy = ⟨p.x + dx, p.y + dy⟩ ∧
    p.sub dx dy = p.add dx dy ∧
    p.subVec v = p.addVec v :=
  ⟨rfl, rfl, rfl⟩

end Zepr

namespace Zepr

/-- Loader statistics, as in loader.ts `class LoaderStats`. -/
structure LoaderStats where
  loaded : ℕ
  total : ℕ
  nextLoad : Option String
deriving DecidableEq, Repr

/-- The preload declarations of a screen (`GameScreen.images` and
`GameScreen.sounds`). -/
structure GameScreen where
  images : List String
  sounds : List String
deriving DecidableEq, Repr

/-- The resources loader: pending queues, in-flight list, statistics, and the
url-keyed cache that stores started loads (modelled by its key list). -/
structure ResourcesLoader where
  imagesToLoad : List String
  soundsToLoad : List String
  loading : List String
  stats : LoaderStats
  cache : List String
deriving DecidableEq, Repr

/-- Concurrency ceiling of the loader. -/
def concurrentLoad : ℕ := 4

/-- One queueing step of `addResources`: append the url and bump the running
total only when it is neither cached nor already queued. -/
def queueStep (cache : List String) (acc : List String × ℕ) (url : String) :
    List String × ℕ :=
  if ¬ cache.contains url ∧ ¬ acc.1.contains url then (acc.1 ++ [url], acc.2 + 1) else acc

/-- The image pass of `addResources`. -/
def addImagesFold (s : ResourcesLoader) (screen : GameScreen) : List String × ℕ :=
  screen.images.foldl (queueStep s.cache) (s.imagesToLoad, s.stats.total)

/-- The sound pass of `addResources`, continuing from the total produced by
the image pass. -/
def addSoundsFold (s : ResourcesLoader) (screen : GameScreen) : List String × ℕ :=
  screen.sounds.foldl (queueStep s.cache) (s.soundsToLoad, (addImagesFold s screen).2)

/-- `ResourcesLoader.addResources(screen)`: every image url then every sound
url not cached and not already queued is appended to its queue, incrementing
`stats.total` once per newly queued url. -/
def ResourcesLoader.addResources (s : ResourcesLoader) (screen : GameScreen) :
    ResourcesLoader :=
  { s with
    imagesToLoad := (addImagesFold s screen).1
    soundsToLoad := (addSoundsFold s screen).1
    stats := { s.stats with total := (addSoundsFold s screen).2 } }

/-- The completed-resource scan of `update`: a JavaScript `forEach` over the
loading list that splices out each complete entry in place. After a splice the
iteration index still advances, so the element shifted into the hole is
skipped this tick. `fuel` is the length captured when the iteration starts,
`k` the running index, `cnt` the completions observed so far. The oracle tells
whether the cached resource at a url currently reports complete; resources of
unrecognized type count as complete. -/
def scanLoading (oracle : String → Bool) : ℕ → ℕ → List String → ℕ → List String × ℕ
  | 0, _, arr, cnt => (arr, cnt)
  | fuel + 1, k, arr, cnt =>
    if h : k < arr.length then
      if oracle (arr.get ⟨k, h⟩) then
        scanLoading oracle fuel (k + 1) (arr.eraseIdx k) (cnt + 1)
      else
        scanLoading oracle fuel (k + 1) arr cnt
    else (arr, cnt)

/-- A load loop of `update`: while fewer than four loads are in flight and the
queue is non-empty, pop the last queued url (JavaScript `Array.pop` removes
from the end), record it in the cache and append it to the in-flight list. -/
def loadLoop : ℕ → List String → List String → List String →
    List String × List String × List String
  | 0, queue, loading, cache => (queue, loading, cache)
  | fuel + 1, queue, loading, cache =>
    if loading.length < concurrentLoad then
      match queue.getLast? with
      | some src => loadLoop fuel queue.dropLast (loading ++ [src]) (cache ++ [src])
      | none => (queue, loading, cache)
    else (queue, loading, cache)

/-- The completion scan stage of `update`. -/
def updateScan (s : ResourcesLoader) (oracle : String → Bool) : List String × ℕ :=
  scanLoading oracle s.loading.length 0 s.loading 0

/-- The image-loading stage of `update`. -/
def updateImg (s : ResourcesLoader) (oracle : String → Bool) :
    List String × List String × List String :=
  loadLoop s.imagesToLoad.length s.imagesToLoad (updateScan s oracle).1 s.cache

/-- The sound-loading stage of `update` (runs after images). -/
def updateSnd (s : ResourcesLoader) (oracle : String → Bool) :
    List String × List String × List String :=
  loadLoop s.soundsToLoad.length s.soundsToLoad (updateImg s oracle).2.1
    (updateImg s oracle).2.2

/-- `ResourcesLoader.update()`: observe completions, start queued loads up to
the concurrency ceiling (images before sounds), then set `nextLoad` to the
head of the in-flight list. -/
def ResourcesLoader.update (s : ResourcesLoader) (oracle : String → Bool) :
    ResourcesLoader :=
  { imagesToLoad := (updateImg s oracle).1
    soundsToLoad := (updateSnd s oracle).1
    loading := (updateSnd s oracle).2.1
    stats :=
      { loaded := s.stats.loaded + (updateScan s oracle).2
        total := s.stats.total
        nextLoad := (updateSnd s oracle).2.1.head? }
    cache := (updateSnd s oracle).2.2 }

/-- `ResourcesLoader.reset()`: clears both queues, the in-flight list and all
statistics. -/
def ResourcesLoader.reset (s : ResourcesLoader) : ResourcesLoader :=
  { s with
    imagesToLoad := []
    soundsToLoad := []
    loading := []
    stats := { loaded := 0, total := 0, nextLoad := none } }

/-- `ResourcesLoader.complete()`: loaded count equals total count. -/
def ResourcesLoader.complete (s : ResourcesLoader) : Bool :=
  s.stats.loaded == s.stats.total

/-- A freshly constructed loader over a given cache. -/
def ResourcesLoader.init (cache : List String) : ResourcesLoader :=
  ⟨[], [], [], ⟨0, 0, none⟩, cache⟩

/-- Loader states reachable from a fresh loader through declarations, update
ticks and resets. -/
inductive ResourcesLoader.Reachable : ResourcesLoader → Prop
  | init (cache : List String) : ResourcesLoader.Reachable (ResourcesLoader.init cache)
  | add {s : ResourcesLoader} (screen : GameScreen) :
      ResourcesLoader.Reachable s → ResourcesLoader.Reachable (s.addResources screen)
  | update {s : ResourcesLoader} (oracle : String → Bool) :
      ResourcesLoader.Reachable s → ResourcesLoader.Reachable (s.update oracle)
  | reset {s : ResourcesLoader} :
      ResourcesLoader.Reachable s → ResourcesLoader.Reachable s.reset

/-- The loader bookkeeping invariant: the declared total equals the resolved
count plus everything still queued or in flight. -/
def ResourcesLoader.balanced (s : ResourcesLoader) : Prop :=
  s.stats.total =
    s.stats.loaded + (s.imagesToLoad.length + s.soundsToLoad.length + s.loading.length)

end Zepr

namespace Zepr

/-- The splice-in-forEach scan moves entries one-for-one from the in-flight
list to the completion count: list length plus count is invariant. -/
lemma scanLoading_length (oracle : String → Bool) :
    ∀ (fuel k : ℕ) (arr : List String) (cnt : ℕ),
      (scanLoading oracle fuel k arr cnt).1.length + (scanLoading oracle fuel k arr cnt).2 =
        arr.length + cnt := by
  intro fuel
  induction fuel with
  | zero =>
    intro k arr cnt
    simp [scanLoading]
  | succ n ih =>
    intro k arr cnt
    simp only [scanLoading]
    split
    · rename_i h
      split
      · rw [ih]
        have he := List.length_eraseIdx_add_one h
        omega
      · rw [ih]
    · simp

/-- The load loop moves entries one-for-one from the pending queue to the
in-flight list. -/
lemma loadLoop_length :
    ∀ (fuel : ℕ) (queue loading cache : List String),
      (loadLoop fuel queue loading cache).1.length +
          (loadLoop fuel queue loading cache).2.1.length =
        queue.length + loading.length := by
  intro fuel
  induction fuel with
  | zero =>
    intro q l c
    simp [loadLoop]
  | succ n ih =>
    intro q l c
    simp only [loadLoop]
    split
    · cases hq : q.getLast? with
      | none => simp
      | some src =>
        have hne : q ≠ [] := by
          intro h
          rw [h] at hq
          simp at hq
        have hp : 1 ≤ q.length := List.length_pos.mpr hne
        simp only [hq]
        rw [ih]
        rw [List.length_dropLast]
        simp only [List.length_append, List.length_cons, List.length_nil]
        omega
    · rfl

/-- Each queueing step bumps the queue length and the running total
together. -/
lemma queueStep_foldl_length (cache : List String) :
    ∀ (l q : List String) (t : ℕ),
      (l.foldl (queueStep cache) (q, t)).2 + q.length =
        (l.foldl (queueStep cache) (q, t)).1.length + t := by
  intro l
  induction l with
  | nil =>
    intro q t
    simp only [List.foldl_nil]
    omega
  | cons u rest ih =>
    intro q t
    simp only [List.foldl_cons, queueStep]
    split
    · have h2 := ih (q ++ [u]) (t + 1)
      simp only [List.length_append, List.length_cons, List.length_nil] at h2
      omega
    · exact ih q t

/-- Queueing a list of urls that are each already cached or already queued
changes nothing. -/
lemma queueStep_foldl_noop (cache q : List String) (t : ℕ) :
    ∀ l : List String,
      (∀ u ∈ l, cache.contains u = true ∨ q.contains u = true) →
      l.foldl (queueStep cache) (q, t) = (q, t) := by
  intro l
  induction l with
  | nil =>
    intro _
    rfl
  | cons u rest ih =>
    intro h
    have hu := h u (List.mem_cons_self u rest)
    have hcond : ¬ (¬ cache.contains u = true ∧ ¬ (q, t).1.contains u = true) := by
      simp only [Prod.fst]
      tauto
    simp only [List.foldl_cons, queueStep, if_neg hcond]
    exact ih (fun v hv => h v (List.mem_cons_of_mem u hv))

/-- `addResources` preserves the bookkeeping invariant. -/
lemma addResources_balanced (s : ResourcesLoader) (screen : GameScreen)
    (h : s.balanced) : (s.addResources screen).balanced := by
  have h1 := queueStep_foldl_length s.cache screen.images s.imagesToLoad s.stats.total
  have h2 := queueStep_foldl_length s.cache screen.sounds s.soundsToLoad
    (addImagesFold s screen).2
  simp only [ResourcesLoader.balanced, ResourcesLoader.addResources] at h ⊢
  simp only [addImagesFold] at h1 h2 ⊢
  simp only [addSoundsFold, addImagesFold]
  omega

/-- `update` preserves the bookkeeping invariant. -/
lemma update_balanced (s : ResourcesLoader) (oracle : String → Bool)
    (h : s.balanced) : (s.update oracle).balanced := by
  have h1 : (updateScan s oracle).1.length + (updateScan s oracle).2 = s.loading.length := by
    have := scanLoading_length oracle s.loading.length 0 s.loading 0
    simpa [updateScan] using this
  have h2 : (updateImg s oracle).1.length + (updateImg s oracle).2.1.length =
      s.imagesToLoad.length + (updateScan s oracle).1.length := by
    have := loadLoop_length s.imagesToLoad.length s.imagesToLoad
      (updateScan s oracle).1 s.cache
    simpa [updateImg] using this
  have h3 : (updateSnd s oracle).1.length + (updateSnd s oracle).2.1.length =
      s.soundsToLoad.length + (updateImg s oracle).2.1.length := by
    have := loadLoop_length s.soundsToLoad.length s.soundsToLoad
      (updateImg s oracle).2.1 (updateImg s oracle).2.2
    simpa [updateSnd] using this
  simp only [ResourcesLoader.balanced, ResourcesLoader.update] at h ⊢
  omega

/-- Every reachable loader state satisfies the bookkeeping invariant. -/
lemma reachable_balanced (s : ResourcesLoader) (h : s.Reachable) : s.balanced := by
  induction h with
  | init cache =>
    simp [ResourcesLoader.balanced, ResourcesLoader.init]
  | add screen _ ih =>
    exact addResources_balanced _ screen ih
  | update oracle _ ih =>
    exact update_balanced _ oracle ih
  | reset _ ih =>
    simp [ResourcesLoader.balanced, ResourcesLoader.reset]

end Zepr

namespace Zepr

/-- Claim C8: in every reachable loader state, `complete()` is true exactly
when the loaded count equals the total count, and false whenever any declared
identifier is still queued or in flight; and `addResources` with identifiers
that are all already cached or already queued leaves the total unchanged. -/
theorem loader_complete_characterisation :
    (∀ s : ResourcesLoader, s.Reachable →
      ((s.complete = true ↔ s.stats.loaded = s.stats.total) ∧
        (s.imagesToLoad ≠ [] ∨ s.soundsToLoad ≠ [] ∨ s.loading ≠ [] →
          s.complete = false))) ∧
    (∀ (s : ResourcesLoader) (screen : GameScreen),
      (∀ u ∈ screen.images, s.cache.contains u = true ∨ s.imagesToLoad.contains u = true) →
      (∀ u ∈ screen.sounds, s.cache.contains u = true ∨ s.soundsToLoad.contains u = true) →
      (s.addResources screen).stats.total = s.stats.total) := by
  constructor
  · intro s hs
    have hb := reachable_balanced s hs
    simp only [ResourcesLoader.balanced] at hb
    constructor
    · simp [ResourcesLoader.complete]
    · intro hne
      have hpos : 1 ≤ s.imagesToLoad.length + s.soundsToLoad.length + s.loading.length := by
        rcases hne with h | h | h
        · have := List.length_pos.mpr h
          omega
        · have := List.length_pos.mpr h
          omega
        · have := List.length_pos.mpr h
          omega
      simp only [ResourcesLoader.complete, beq_eq_false_iff_ne, ne_eq]
      omega
  · intro s screen h1 h2
    have hi : addImagesFold s screen = (s.imagesToLoad, s.stats.total) := by
      simp only [addImagesFold]
      exact queueStep_foldl_noop s.cache s.imagesToLoad s.stats.total screen.images h1
    have hs : addSoundsFold s screen = (s.soundsToLoad, s.stats.total) := by
      simp only [addSoundsFold, hi]
      exact queueStep_foldl_noop s.cache s.soundsToLoad s.stats.total screen.sounds h2
    simp only [ResourcesLoader.addResources, hs]

/-- Claim C8 witness: after declaring one fresh image the loader is reachable,
incomplete, characterised by its counters; and re-declaring an identifier that
is already cached leaves the total unchanged. -/
theorem loader_complete_characterisation_witness :
    (((ResourcesLoader.init []).addResources ⟨["a"], []⟩).complete = true ↔
      ((ResourcesLoader.init []).addResources ⟨["a"], []⟩).stats.loaded =
        ((ResourcesLoader.init []).addResources ⟨["a"], []⟩).stats.total) ∧
    ((ResourcesLoader.init []).addResources ⟨["a"], []⟩).complete = false ∧
    ((ResourcesLoader.init ["b"]).addResources ⟨["b"], []⟩).stats.total =
      (ResourcesLoader.init ["b"]).stats.total :=
  ⟨(loader_complete_characterisation.1 _
      (ResourcesLoader.Reachable.add _ (ResourcesLoader.Reachable.init []))).1,
   (loader_complete_characterisation.1 _
      (ResourcesLoader.Reachable.add _ (ResourcesLoader.Reachable.init []))).2
      (Or.inl (by decide)),
   loader_complete_characterisation.2 _ ⟨["b"], []⟩ (by decide) (by decide)⟩

/-- The per-scene state touched by `Engine.reset` (engine.ts), together with
the resources loader instance the engine owns. Sprites are opaque
identifiers; the two zoom `State` objects hold `current` plus a possibly
still-undefined `next`. -/
structure EngineState where
  background : Option String
  backgroundColor : String
  spriteList : List ℕ
  modifiedSpriteList : Bool
  mouseEvent : Option Point
  mouseMovement : Vector
  zoomCurrent : ℚ
  zoomNext : Option ℚ
  touchZoomCurrent : ℚ
  touchZoomNext : Option ℚ
  isTouchZoom : Bool
  initLoader : Bool
  loader : ResourcesLoader
deriving DecidableEq, Repr

/-- `Engine.reset`: restores background, sprite list, mouse state, zoom state
and the initLoader flag to their defaults. The method never touches the
resources loader, so that field is left unchanged. -/
def EngineState.reset (s : EngineState) : EngineState :=
  { s with
    background := none
    backgroundColor := "#000000"
    spriteList := []
    modifiedSpriteList := true
    mouseEvent := none
    mouseMovement := ⟨0, 0⟩
    zoomCurrent := 1
    zoomNext := none
    touchZoomCurrent := 0
    touchZoomNext := none
    isTouchZoom := false
    initLoader := false }

/-- A concrete engine state about to be torn down: its loader has four
declared resources, two loaded, one queued, one in flight. -/
def teardownState : EngineState :=
  { background := none
    backgroundColor := "#FFFFFF"
    spriteList := [1]
    modifiedSpriteList := false
    mouseEvent := none
    mouseMovement := ⟨0, 0⟩
    zoomCurrent := 1
    zoomNext := none
    touchZoomCurrent := 0
    touchZoomNext := none
    isTouchZoom := false
    initLoader := true
    loader :=
      { imagesToLoad := ["a.png"]
        soundsToLoad := []
        loading := ["b.png"]
        stats := { loaded := 2, total := 4, nextLoad := none }
        cache := ["b.png"] } }

/-- Claim C4 counterexample: after the scene-teardown reset, the loader
queues, in-flight list and counters are exactly what they were — the total is
still 4 and the loaded count still 2, not zero as the claim requires. -/
theorem engine_reset_keeps_loader_cex :
    teardownState.reset.loader.stats.total = 4 ∧
    teardownState.reset.loader.stats.loaded = 2 ∧
    teardownState.reset.loader.imagesToLoad = ["a.png"] ∧
    teardownState.reset.loader.loading = ["b.png"] ∧
    ¬ (teardownState.reset.loader.stats.total = 0 ∧
        teardownState.reset.loader.stats.loaded = 0) :=
  ⟨rfl, rfl, rfl, rfl, by intro h; exact absurd h.1 (by decide)⟩

/-- Claim C4 (amended): scene teardown resets background, sprites, mouse and
zoom state and clears only the `initLoader` flag; it leaves the resources
loader — queues, in-flight list, loadedCount and totalCount — completely
unchanged. `ResourcesLoader.reset` would clear all of them, but the engine
never invokes it. -/
theorem engine_reset_loader_amended :
    (∀ s : EngineState, s.reset.loader = s.loader ∧ s.reset.initLoader = false) ∧
    (∀ l : ResourcesLoader,
      l.reset.imagesToLoad = [] ∧ l.reset.soundsToLoad = [] ∧
      l.reset.loading = [] ∧ l.reset.stats.loaded = 0 ∧
      l.reset.stats.total = 0 ∧ l.reset.stats.nextLoad = none) :=
  ⟨fun s => ⟨rfl, rfl⟩, fun l => ⟨rfl, rfl, rfl, rfl, rfl, rfl⟩⟩

end Zepr

namespace Zepr

/-- JavaScript truthiness of the `lastTime` field of `Core`: false while the
field is still undefined and when it holds zero. -/
def jsTruthy : Option ℚ → Bool
  | none => false
  | some t => decide (t ≠ 0)

/-- The elapsed-time expression of `Core.run`:
`this.lastTime ? time - this.lastTime : time`. -/
def coreElapsed (lastTime : Option ℚ) (time : ℚ) : ℚ :=
  if jsTruthy lastTime then time - lastTime.getD 0 else time

/-- The `Core` fields driving scene switching and the per-frame elapsed-time
computation: whether a screen is active, whether a switch is pending, what the
loader reports, the loader-screen flag, and the raw timestamp of the last
frame that ran an active screen (undefined until then, and never cleared by
`Core.reset`). -/
structure CoreState where
  screen : Bool
  nextScreen : Bool
  loaderComplete : Bool
  initLoader : Bool
  lastTime : Option ℚ
deriving DecidableEq, Repr

/-- One animation frame of `Core.run` restricted to these fields: handle a
pending switch (teardown via `reset`, which clears `initLoader` but not
`lastTime`; activate when the loader is complete), then, if a screen is
active, deliver `lastTime ? time - lastTime : time` to its run callback and
record the timestamp. Returns the new state and the elapsed value delivered,
if any. The repaint, the loader-screen drive and the sprite sort do not touch
these fields and are omitted. -/
def coreRunFrame (s : CoreState) (time : ℚ) : CoreState × Option ℚ :=
  let s1 :=
    if s.nextScreen then
      let sa := if s.screen then { s with initLoader := false, screen := false } else s
      if sa.loaderComplete then { sa with screen := true, nextScreen := false }
      else { sa with initLoader := true }
    else s
  if s1.screen then
    ({ s1 with lastTime := some time }, some (coreElapsed s1.lastTime time))
  else (s1, none)

/-- Claim C5 counterexample: the very first frame on which a scene becomes
active delivers the raw timestamp, not zero — at timestamp 5 the callback
receives 5; and after a scene switch the new scene receives the delta since
the previous scene frame (timestamp 116 with a previous frame at 100 delivers
16), again not zero. -/
theorem first_frame_elapsed_cex :
    (coreRunFrame ⟨false, true, true, false, none⟩ 5).2 = some 5 ∧
    (5 : ℚ) ≠ 0 ∧
    (coreRunFrame ⟨true, true, true, false, some 100⟩ 116).2 = some 16 ∧
    (16 : ℚ) ≠ 0 := by
  refine ⟨?_, by norm_num, ?_, by norm_num⟩
  · rfl
  · norm_num [coreRunFrame, coreElapsed, jsTruthy]

/-- Claim C5 (amended): the run callback receives `time - lastTime` whenever
`lastTime` is set and non-zero, and the raw timestamp `time` otherwise — in
particular the first active frame ever receives the raw timestamp, not zero.
`lastTime` survives scene switches (reset never clears it), so on an
activation frame the value is the measured delta since the previous scene ran.
On every following frame of the active scene the callback receives the
measured delta since the previous frame. -/
theorem frame_elapsed_amended (lt : Option ℚ) (t1 t2 : ℚ) (h1 : t1 ≠ 0) :
    (coreRunFrame ⟨false, true, true, false, lt⟩ t1).2 = some (coreElapsed lt t1) ∧
    (∀ t0 : ℚ, t0 ≠ 0 → coreElapsed (some t0) t1 = t1 - t0) ∧
    coreElapsed none t1 = t1 ∧
    (coreRunFrame (coreRunFrame ⟨false, true, true, false, lt⟩ t1).1 t2).2 =
      some (t2 - t1) := by
  refine ⟨rfl, ?_, rfl, ?_⟩
  · intro t0 h0
    simp [coreElapsed, jsTruthy, h0]
  · simp [coreRunFrame, coreElapsed, jsTruthy, h1]

/-- Claim C5 witness: with no previous frame, activation at timestamp 5
delivers 5, and the following frame at timestamp 16 delivers 11. -/
theorem frame_elapsed_amended_witness :
    (coreRunFrame ⟨false, true, true, false, none⟩ 5).2 = some (coreElapsed none 5) ∧
    (∀ t0 : ℚ, t0 ≠ 0 → coreElapsed (some t0) 5 = 5 - t0) ∧
    coreElapsed none 5 = 5 ∧
    (coreRunFrame (coreRunFrame ⟨false, true, true, false, none⟩ 5).1 16).2 =
      some (16 - 5) :=
  frame_elapsed_amended none 5 16 (by norm_num)

end Zepr

namespace Zepr

/-- The engine configuration fixed while a scene is running: the viewport
destination rectangle and scene size used by coordinate mapping, the
enable flags of the mouse/zoom controls, the truthiness of
`window.ontouchstart` tested in `onDown`, which optional listeners the active
screen implements, the zoom clamp bounds, and the inter-touch distance
function (abstracting `Vector(...).getLength()`, whose square root has no
exact rational embedding). -/
structure Env where
  coords : Rectangle
  width : ℚ
  height : ℚ
  mouseEnabled : Bool
  mouseMoveEnabled : Bool
  zoomEnabled : Bool
  windowTouch : Bool
  hasOnClick : Bool
  hasOnZoom : Bool
  hasOnDrag : Bool
  hasOnDrop : Bool
  minZoom : ℚ
  maxZoom : ℚ
  dist : Point → Point → ℚ

/-- A raw pointer payload: a mouse event or the touch list of a touch
event. -/
inductive PEvent where
  | mouse (p : Point)
  | touch (ts : List Point)

/-- The raw page coordinates read by `getEventPosition`: the event position
for a mouse event, the first touch for a touch event, and the initial
`(-1, -1)` when the touch list is empty. -/
def rawXY : PEvent → ℚ × ℚ
  | PEvent.mouse p => (p.x, p.y)
  | PEvent.touch ts =>
    match ts.head? with
    | some t => (t.x, t.y)
    | none => (-1, -1)

/-- The normalized viewport abscissa computed by `getEventPosition`. -/
def normX (env : Env) (e : PEvent) : ℚ :=
  ((rawXY e).1 - env.coords.x) / env.coords.width

/-- The normalized viewport ordinate computed by `getEventPosition`. -/
def normY (env : Env) (e : PEvent) : ℚ :=
  ((rawXY e).2 - env.coords.y) / env.coords.height

/-- `Engine.getEventPosition`: null unless the normalized coordinates are
strictly inside the unit square, otherwise the scene-scaled position. -/
def getEventPosition (env : Env) (e : PEvent) : Option Point :=
  if 0 < normX env e ∧ normX env e < 1 ∧ 0 < normY env e ∧ normY env e < 1 then
    some ⟨normX env e * env.width, normY env e * env.height⟩
  else none

/-- The engine gesture state: the pending click position, the accumulated
drag vector, the previous pointer position, the drag-ended flag, the two zoom
state pairs, the pinch flag, and whether the move/up listeners are currently
registered. -/
structure EngState where
  mouseEvent : Option Point
  mouseMovement : Vector
  mousePrevious : Option Point
  endDrag : Bool
  zoomCurrent : ℚ
  zoomNext : ℚ
  touchZoomCurrent : ℚ
  touchZoomNext : ℚ
  isTouchZoom : Bool
  listening : Bool
deriving DecidableEq, Repr

/-- Distance between the first two touches, via the abstract distance
function. -/
def touchDist (env : Env) : List Point → ℚ
  | t0 :: t1 :: _ => env.dist t0 t1
  | _ => 0

/-- `Engine.onDown`: compute the mapped position; when zoom is enabled, the
window reports a touch handler, and more than one touch is active, record the
pinch start (and null the position); then, for a non-null position, record the
click and, when drag is enabled, arm drag tracking and register the move/up
listeners. -/
def onDown (env : Env) (s : EngState) (e : PEvent) : EngState :=
  let position := getEventPosition env e
  let isPinch : Bool :=
    env.zoomEnabled && env.windowTouch &&
      (match e with
       | PEvent.touch ts => decide (1 < ts.length)
       | PEvent.mouse _ => false)
  let s1 :=
    if isPinch then
      { s with
        isTouchZoom := true
        touchZoomCurrent :=
          (match e with
           | PEvent.touch ts => touchDist env ts
           | PEvent.mouse _ => 0)
        touchZoomNext := 0 }
    else s
  let position1 := if isPinch then none else position
  match position1 with
  | some p =>
    let s2 := { s1 with mouseEvent := some p }
    if env.mouseMoveEnabled then
      { s2 with
        mouseMovement := ⟨0, 0⟩
        mousePrevious := some p
        listening := true }
    else s2
  | none => s1

/-- The wheel zoom step ratio (1.1). -/
def zoomStep : ℚ := 11 / 10

/-- `Engine.onZoom` on a wheel event: divide or multiply `zoomNext` by the
step ratio according to the scroll direction. -/
def onZoomWheel (s : EngState) (deltaY : ℚ) : EngState :=
  if deltaY > 0 then { s with zoomNext := s.zoomNext / zoomStep }
  else { s with zoomNext := s.zoomNext * zoomStep }

/-- `Engine.onZoom` on a touch-move event: with more than one touch, set the
pinch flag and sample the inter-touch distance into `touchZoomNext`. -/
def onZoomTouch (env : Env) (s : EngState) (ts : List Point) : EngState :=
  if 1 < ts.length then
    { s with isTouchZoom := true, touchZoomNext := touchDist env ts }
  else s

/-- `Engine.onEndZoom`: zero both pinch samples; when no touches remain,
clear the pinch flag. -/
def onEndZoom (s : EngState) (ts : List Point) : EngState :=
  let s1 := { s with touchZoomCurrent := 0, touchZoomNext := 0 }
  if ts.length = 0 then { s1 with isTouchZoom := false } else s1

/-- `Engine.onMove`: when drag is enabled and the position maps inside the
viewport, accumulate the delta from the previous position into
`mouseMovement` and advance the anchor. -/
def onMove (env : Env) (s : EngState) (e : PEvent) : EngState :=
  if env.mouseMoveEnabled then
    match getEventPosition env e with
    | some np =>
      let prev := s.mousePrevious.getD ⟨0, 0⟩
      { s with
        mouseMovement :=
          ⟨s.mouseMovement.x + (np.x - prev.x), s.mouseMovement.y + (np.y - prev.y)⟩
        mousePrevious := some np }
    | none => s
  else s

/-- `Engine.onUp`: accumulate a final delta unless a pinch is active (then
zero the drag vector instead); unregister the move/up listeners and set the
drag-ended flag. -/
def onUp (env : Env) (s : EngState) (e : PEvent) : EngState :=
  let s1 :=
    if env.mouseMoveEnabled && !s.isTouchZoom then
      match getEventPosition env e with
      | some np =>
        let prev := s.mousePrevious.getD ⟨0, 0⟩
        { s with
          mouseMovement :=
            ⟨s.mouseMovement.x + (np.x - prev.x), s.mouseMovement.y + (np.y - prev.y)⟩
          mousePrevious := some np }
      | none => s
    else { s with mouseMovement := ⟨0, 0⟩ }
  { s1 with listening := false, endDrag := true }

/-- A per-tick signal delivered to the active screen. -/
inductive Signal where
  | click (p : Point)
  | zoom (z : ℚ)
  | drag (v : Vector)
  | drop
deriving DecidableEq, Repr

/-- `manageMouseEvents`, click phase: deliver and clear a pending click. -/
def stageClick (env : Env) (s : EngState) : EngState × List Signal :=
  if env.mouseEnabled then
    match s.mouseEvent with
    | some p =>
      ({ s with mouseEvent := none }, if env.hasOnClick then [Signal.click p] else [])
    | none => (s, [])
  else (s, [])

/-- `manageMouseEvents`, pinch reconciliation phase: when a fresh non-zero
pinch sample differs from the current one, scale `zoomNext` by their ratio
(only if the current sample is non-zero) and advance the current sample. -/
def stageTouchZoom (env : Env) (s : EngState) : EngState :=
  if env.zoomEnabled ∧ s.touchZoomNext ≠ 0 ∧ s.touchZoomCurrent ≠ s.touchZoomNext then
    let s1 :=
      if s.touchZoomCurrent ≠ 0 then
        { s with zoomNext := s.zoomNext * (s.touchZoomNext / s.touchZoomCurrent) }
      else s
    { s1 with touchZoomCurrent := s1.touchZoomNext }
  else s

/-- `manageMouseEvents`, clamp phase: clamp `zoomNext` into the configured
bounds. -/
def stageClamp (env : Env) (s : EngState) : EngState :=
  let s1 := if s.zoomNext < env.minZoom then { s with zoomNext := env.minZoom } else s
  if s1.zoomNext > env.maxZoom then { s1 with zoomNext := env.maxZoom } else s1

/-- `manageMouseEvents`, zoom dispatch phase: when `zoomNext` moved, deliver
it and advance `zoomCurrent`. -/
def stageZoomDispatch (env : Env) (s : EngState) : EngState × List Signal :=
  if env.zoomEnabled ∧ s.zoomCurrent ≠ s.zoomNext then
    ({ s with zoomCurrent := s.zoomNext },
      if env.hasOnZoom then [Signal.zoom s.zoomNext] else [])
  else (s, [])

/-- `manageMouseEvents`, drag dispatch phase: with mouse control on, no pinch
active, a drag listener present and a non-zero accumulated vector, deliver the
vector and zero it. -/
def stageDrag (env : Env) (s : EngState) : EngState × List Signal :=
  if env.mouseEnabled ∧ ¬ s.isTouchZoom ∧ env.hasOnDrag ∧
      ¬ (s.mouseMovement.x = 0 ∧ s.mouseMovement.y = 0) then
    ({ s with mouseMovement := ⟨0, 0⟩ }, [Signal.drag s.mouseMovement])
  else (s, [])

/-- `manageMouseEvents`, drop phase: when the drag-ended flag is set, clear it
and deliver the drop. -/
def stageDrop (env : Env) (s : EngState) : EngState × List Signal :=
  if s.endDrag then
    ({ s with endDrag := false }, if env.hasOnDrop then [Signal.drop] else [])
  else (s, [])

/-- `Engine.manageMouseEvents`: the six phases in source order; the signal
list collects what was delivered to the screen this tick. -/
def manageMouseEvents (env : Env) (s : EngState) : EngState × List Signal :=
  let r1 := stageClick env s
  let s2 := stageTouchZoom env r1.1
  let s3 := stageClamp env s2
  let r4 := stageZoomDispatch env s3
  let r5 := stageDrag env r4.1
  let r6 := stageDrop env r5.1
  (r6.1, r1.2 ++ r4.2 ++ r5.2 ++ r6.2)

/-- A raw input event or an animation tick. -/
inductive REvent where
  | mouseDown (p : Point)
  | touchStart (ts : List Point)
  | mouseMove (p : Point)
  | touchMove (ts : List Point)
  | mouseUp (p : Point)
  | touchEnd (ts : List Point)
  | wheel (deltaY : ℚ)
  | tick

/-- Dispatch of one event to the handlers registered for it: `onDown` on
mouse-down (mouse control on) and touch-start (mouse or zoom control on);
`onZoom` then `onMove` on touch-move (zoom registration precedes the
per-gesture move registration); `onEndZoom` then `onUp` on touch-end; a tick
runs `manageMouseEvents`. The move/up handlers run only while registered. -/
def handleEvent (env : Env) (s : EngState) : REvent → EngState × List Signal
  | REvent.mouseDown p =>
    (if env.mouseEnabled then onDown env s (PEvent.mouse p) else s, [])
  | REvent.touchStart ts =>
    (if env.mouseEnabled || env.zoomEnabled then onDown env s (PEvent.touch ts) else s, [])
  | REvent.mouseMove p =>
    (if s.listening then onMove env s (PEvent.mouse p) else s, [])
  | REvent.touchMove ts =>
    let s1 := if env.zoomEnabled then onZoomTouch env s ts else s
    (if s1.listening then onMove env s1 (PEvent.touch ts) else s1, [])
  | REvent.mouseUp p =>
    (if s.listening then onUp env s (PEvent.mouse p) else s, [])
  | REvent.touchEnd ts =>
    let s1 := if env.zoomEnabled then onEndZoom s ts else s
    (if s1.listening then onUp env s1 (PEvent.touch ts) else s1, [])
  | REvent.wheel d =>
    (if env.zoomEnabled then onZoomWheel s d else s, [])
  | REvent.tick => manageMouseEvents env s

/-- Run a list of events, concatenating the delivered signals. -/
def runEvents (env : Env) : EngState → List REvent → EngState × List Signal
  | s, [] => (s, [])
  | s, e :: rest =>
    let r1 := handleEvent env s e
    let r2 := runEvents env r1.1 rest
    (r2.1, r1.2 ++ r2.2)

/-- `n` consecutive animation ticks. -/
def ticks (n : ℕ) : List REvent :=
  List.replicate n REvent.tick

/-- Drag signal recogniser. -/
def isDragSig : Signal → Bool
  | Signal.drag _ => true
  | _ => false

/-- Drop signal recogniser. -/
def isDropSig : Signal → Bool
  | Signal.drop => true
  | _ => false

/-- Number of drag signals in a delivery list. -/
def dragCount (gs : List Signal) : ℕ :=
  (gs.filter isDragSig).length

/-- Number of drop signals in a delivery list. -/
def dropCount (gs : List Signal) : ℕ :=
  (gs.filter isDropSig).length

/-- The engine gesture state right after construction and enabling of the
controls: no pending click, zero drag vector, no anchor, no pending drop,
zoom 1, no pinch samples, not listening. -/
def initEngState : EngState :=
  { mouseEvent := none
    mouseMovement := ⟨0, 0⟩
    mousePrevious := none
    endDrag := false
    zoomCurrent := 1
    zoomNext := 1
    touchZoomCurrent := 0
    touchZoomNext := 0
    isTouchZoom := false
    listening := false }

/-- The motion segment of a pinch: each element is a two-touch move followed
by a number of ticks. -/
def motionBlock (ms : List ((Point × Point) × ℕ)) : List REvent :=
  (ms.map (fun m => REvent.touchMove [m.1.1, m.1.2] :: ticks m.2)).flatten

/-- The prefix of the pinch scenario: ticks, a one-touch start, ticks, a
two-touch start, interleaved two-touch motion and ticks, then the end of one
touch (two touches become one). -/
def pinchPre (a b : ℕ) (p q0 q1 r : Point)
    (ms : List ((Point × Point) × ℕ)) : List REvent :=
  ticks a ++ ([REvent.touchStart [p]] ++ (ticks b ++ ([REvent.touchStart [q0, q1]] ++
    (motionBlock ms ++ [REvent.touchEnd [r]]))))

/-- The event sequences of claim C6: ticks, a one-touch start, ticks, a
two-touch start, interleaved two-touch motion and ticks, the end of one touch,
ticks, the end of the last touch, ticks. -/
def pinchTrace (a b e f : ℕ) (p q0 q1 r : Point)
    (ms : List ((Point × Point) × ℕ)) : List REvent :=
  pinchPre a b p q0 q1 r ms ++ (ticks e ++ ([REvent.touchEnd []] ++ ticks f))

end Zepr

namespace Zepr

/-- Claim C9: a pointer or touch event whose normalized viewport coordinate
lands exactly on the unit-square boundary maps to null — the containment test
is strict, not closed — and `onDown` on such an event is a no-op for input
tracking: no click is recorded, drag tracking is not armed, and the move/up
listeners are not registered. -/
theorem boundary_event_noop (env : Env) (e : PEvent)
    (h : normX env e = 0 ∨ normX env e = 1 ∨ normY env e = 0 ∨ normY env e = 1) :
    getEventPosition env e = none ∧
    ∀ s : EngState,
      (onDown env s e).mouseEvent = s.mouseEvent ∧
      (onDown env s e).mouseMovement = s.mouseMovement ∧
      (onDown env s e).mousePrevious = s.mousePrevious ∧
      (onDown env s e).listening = s.listening := by
  have hpos : getEventPosition env e = none := by
    unfold getEventPosition
    rw [if_neg]
    rintro ⟨h1, h2, h3, h4⟩
    rcases h with hb | hb | hb | hb
    · rw [hb] at h1
      exact lt_irrefl 0 h1
    · rw [hb] at h2
      exact lt_irrefl 1 h2
    · rw [hb] at h3
      exact lt_irrefl 0 h3
    · rw [hb] at h4
      exact lt_irrefl 1 h4
  refine ⟨hpos, ?_⟩
  intro s
  simp only [onDown, hpos, ite_self]
  refine ⟨?_, ?_, ?_, ?_⟩ <;> split <;> rfl

/-- A concrete viewport: destination rectangle 100×100 at the origin, scene
size 100×100, all controls enabled, all listeners present. -/
def boundaryEnv : Env :=
  { coords := ⟨0, 0, 100, 100⟩
    width := 100
    height := 100
    mouseEnabled := true
    mouseMoveEnabled := true
    zoomEnabled := true
    windowTouch := true
    hasOnClick := true
    hasOnZoom := true
    hasOnDrag := true
    hasOnDrop := true
    minZoom := 1 / 10
    maxZoom := 10
    dist := fun _ _ => 0 }

/-- A mouse event on the right edge of the viewport: normalized x is exactly
1. -/
def boundaryEvent : PEvent :=
  PEvent.mouse ⟨100, 50⟩

/-- Claim C9 witness: the edge event maps to null and leaves the idle engine
state unarmed. -/
theorem boundary_event_noop_witness :
    getEventPosition boundaryEnv boundaryEvent = none ∧
    (onDown boundaryEnv initEngState boundaryEvent).mouseEvent = initEngState.mouseEvent ∧
    (onDown boundaryEnv initEngState boundaryEvent).mouseMovement =
      initEngState.mouseMovement ∧
    (onDown boundaryEnv initEngState boundaryEvent).mousePrevious =
      initEngState.mousePrevious ∧
    (onDown boundaryEnv initEngState boundaryEvent).listening = initEngState.listening :=
  have h := boundary_event_noop boundaryEnv boundaryEvent
    (Or.inr (Or.inl (by norm_num [normX, rawXY, boundaryEnv, boundaryEvent])))
  ⟨h.1, (h.2 initEngState).1, (h.2 initEngState).2.1, (h.2 initEngState).2.2.1,
    (h.2 initEngState).2.2.2⟩

end Zepr

namespace Zepr

/-- Counting drags distributes over concatenation. -/
lemma dragCount_append (a b : List Signal) :
    dragCount (a ++ b) = dragCount a + dragCount b := by
  simp [dragCount, List.filter_append]

/-- Counting drops distributes over concatenation. -/
lemma dropCount_append (a b : List Signal) :
    dropCount (a ++ b) = dropCount a + dropCount b := by
  simp [dropCount, List.filter_append]

/-- The click phase never emits drag or drop and does not touch the drag
vector, the drop flag, the listener flag or the pinch flag. -/
lemma stageClick_spec (env : Env) (s : EngState) :
    (stageClick env s).1.mouseMovement = s.mouseMovement ∧
    (stageClick env s).1.endDrag = s.endDrag ∧
    (stageClick env s).1.listening = s.listening ∧
    (stageClick env s).1.isTouchZoom = s.isTouchZoom ∧
    dragCount (stageClick env s).2 = 0 ∧
    dropCount (stageClick env s).2 = 0 := by
  unfold stageClick
  split
  · split
    · refine ⟨rfl, rfl, rfl, rfl, ?_, ?_⟩ <;> (split <;> rfl)
    · exact ⟨rfl, rfl, rfl, rfl, rfl, rfl⟩
  · exact ⟨rfl, rfl, rfl, rfl, rfl, rfl⟩

/-- The pinch reconciliation phase only touches the zoom fields. -/
lemma stageTouchZoom_spec (env : Env) (s : EngState) :
    (stageTouchZoom env s).mouseMovement = s.mouseMovement ∧
    (stageTouchZoom env s).endDrag = s.endDrag ∧
    (stageTouchZoom env s).listening = s.listening ∧
    (stageTouchZoom env s).isTouchZoom = s.isTouchZoom := by
  simp only [stageTouchZoom]
  split
  · refine ⟨?_, ?_, ?_, ?_⟩ <;> (split <;> rfl)
  · exact ⟨rfl, rfl, rfl, rfl⟩

/-- The clamp phase only touches `zoomNext`. -/
lemma stageClamp_spec (env : Env) (s : EngState) :
    (stageClamp env s).mouseMovement = s.mouseMovement ∧
    (stageClamp env s).endDrag = s.endDrag ∧
    (stageClamp env s).listening = s.listening ∧
    (stageClamp env s).isTouchZoom = s.isTouchZoom := by
  simp only [stageClamp]
  refine ⟨?_, ?_, ?_, ?_⟩ <;> (split <;> split <;> rfl)

/-- The zoom dispatch phase never emits drag or drop and does not touch the
drag vector, the drop flag, the listener flag or the pinch flag. -/
lemma stageZoomDispatch_spec (env : Env) (s : EngState) :
    (stageZoomDispatch env s).1.mouseMovement = s.mouseMovement ∧
    (stageZoomDispatch env s).1.endDrag = s.endDrag ∧
    (stageZoomDispatch env s).1.listening = s.listening ∧
    (stageZoomDispatch env s).1.isTouchZoom = s.isTouchZoom ∧
    dragCount (stageZoomDispatch env s).2 = 0 ∧
    dropCount (stageZoomDispatch env s).2 = 0 := by
  unfold stageZoomDispatch
  split
  · refine ⟨rfl, rfl, rfl, rfl, ?_, ?_⟩ <;> (split <;> rfl)
  · exact ⟨rfl, rfl, rfl, rfl, rfl, rfl⟩

/-- With a zero accumulated vector the drag phase is a no-op. -/
lemma stageDrag_zero (env : Env) (s : EngState) (h : s.mouseMovement = ⟨0, 0⟩) :
    stageDrag env s = (s, []) := by
  unfold stageDrag
  rw [if_neg]
  rintro ⟨-, -, -, h4⟩
  exact h4 ⟨by rw [h], by rw [h]⟩

/-- While a pinch is active the drag phase is a no-op, whatever the
accumulated vector holds. -/
lemma stageDrag_pinch (env : Env) (s : EngState) (h : s.isTouchZoom = true) :
    stageDrag env s = (s, []) := by
  unfold stageDrag
  rw [if_neg]
  rintro ⟨-, h2, -, -⟩
  exact h2 h

/-- The drop phase: it emits exactly one drop when the flag was set and a
drop listener exists, clears the flag, touches nothing else, and never emits
a drag. -/
lemma stageDrop_spec (env : Env) (s : EngState) :
    dropCount (stageDrop env s).2 =
      (if s.endDrag = true ∧ env.hasOnDrop = true then 1 else 0) ∧
    (stageDrop env s).1.endDrag = false ∧
    (stageDrop env s).1.mouseMovement = s.mouseMovement ∧
    (stageDrop env s).1.listening = s.listening ∧
    (stageDrop env s).1.isTouchZoom = s.isTouchZoom ∧
    dragCount (stageDrop env s).2 = 0 := by
  unfold stageDrop
  split
  · rename_i h
    refine ⟨?_, rfl, rfl, rfl, rfl, ?_⟩
    · simp only [h, true_and]
      split <;> rfl
    · split <;> rfl
  · rename_i h
    have hf : s.endDrag = false := by
      revert h
      cases s.endDrag <;> simp
    refine ⟨?_, hf, rfl, rfl, rfl, rfl⟩
    simp [hf, dropCount]

end Zepr

namespace Zepr

/-- One tick: when the accumulated drag vector is zero or a pinch is active,
the tick emits no drag, preserves the listener flag, the pinch flag and the
drag vector, always leaves the drop flag cleared, and emits exactly one drop
when the flag was set and a drop listener exists. -/
lemma tick_spec (env : Env) (s : EngState)
    (h : s.mouseMovement = ⟨0, 0⟩ ∨ s.isTouchZoom = true) :
    (manageMouseEvents env s).1.listening = s.listening ∧
    (manageMouseEvents env s).1.isTouchZoom = s.isTouchZoom ∧
    (manageMouseEvents env s).1.endDrag = false ∧
    (manageMouseEvents env s).1.mouseMovement = s.mouseMovement ∧
    dragCount (manageMouseEvents env s).2 = 0 ∧
    dropCount (manageMouseEvents env s).2 =
      (if s.endDrag = true ∧ env.hasOnDrop = true then 1 else 0) := by
  obtain ⟨c1, c2, c3, c4, c5, c6⟩ := stageClick_spec env s
  obtain ⟨t1, t2, t3, t4⟩ := stageTouchZoom_spec env (stageClick env s).1
  obtain ⟨m1, m2, m3, m4⟩ := stageClamp_spec env (stageTouchZoom env (stageClick env s).1)
  obtain ⟨z1, z2, z3, z4, z5, z6⟩ :=
    stageZoomDispatch_spec env (stageClamp env (stageTouchZoom env (stageClick env s).1))
  set s4 := (stageZoomDispatch env
    (stageClamp env (stageTouchZoom env (stageClick env s).1))).1 with hs4
  have hmv4 : s4.mouseMovement = s.mouseMovement := by rw [hs4, z1, m1, t1, c1]
  have hed4 : s4.endDrag = s.endDrag := by rw [hs4, z2, m2, t2, c2]
  have hls4 : s4.listening = s.listening := by rw [hs4, z3, m3, t3, c3]
  have htz4 : s4.isTouchZoom = s.isTouchZoom := by rw [hs4, z4, m4, t4, c4]
  have hdrag : stageDrag env s4 = (s4, []) := by
    rcases h with h | h
    · exact stageDrag_zero env s4 (by rw [hmv4, h])
    · exact stageDrag_pinch env s4 (by rw [htz4, h])
  obtain ⟨p1, p2, p3, p4, p5, p6⟩ := stageDrop_spec env s4
  simp only [manageMouseEvents]
  rw [← hs4, hdrag]
  dsimp only
  refine ⟨?_, ?_, ?_, ?_, ?_, ?_⟩
  · rw [p4, hls4]
  · rw [p5, htz4]
  · exact p2
  · rw [p3, hmv4]
  · rw [dragCount_append, dragCount_append, dragCount_append, c5, z5, p6]
    rfl
  · rw [dropCount_append, dropCount_append, dropCount_append, c6, z6, p1, hed4]
    simp [dropCount]

/-- The tick equation of the event dispatcher. -/
lemma handleEvent_tick (env : Env) (s : EngState) :
    handleEvent env s REvent.tick = manageMouseEvents env s := rfl

/-- Unfolding of a tick sequence. -/
lemma ticks_succ (n : ℕ) : ticks (n + 1) = REvent.tick :: ticks n := by
  simp [ticks, List.replicate_succ]

/-- A run of ticks from a state with a zero drag vector and a cleared drop
flag delivers no drag and no drop and preserves those fields together with
the listener and pinch flags. -/
lemma runTicks_quiet (env : Env) :
    ∀ (n : ℕ) (s : EngState), s.mouseMovement = ⟨0, 0⟩ → s.endDrag = false →
      dragCount (runEvents env s (ticks n)).2 = 0 ∧
      dropCount (runEvents env s (ticks n)).2 = 0 ∧
      (runEvents env s (ticks n)).1.mouseMovement = ⟨0, 0⟩ ∧
      (runEvents env s (ticks n)).1.endDrag = false ∧
      (runEvents env s (ticks n)).1.listening = s.listening ∧
      (runEvents env s (ticks n)).1.isTouchZoom = s.isTouchZoom := by
  intro n
  induction n with
  | zero =>
    intro s h1 h2
    exact ⟨rfl, rfl, h1, h2, rfl, rfl⟩
  | succ m ih =>
    intro s h1 h2
    obtain ⟨l1, l2, l3, l4, l5, l6⟩ := tick_spec env s (Or.inl h1)
    have hmv : (manageMouseEvents env s).1.mouseMovement = ⟨0, 0⟩ := by rw [l4, h1]
    obtain ⟨i1, i2, i3, i4, i5, i6⟩ := ih (manageMouseEvents env s).1 hmv l3
    rw [ticks_succ]
    simp only [runEvents, handleEvent_tick]
    refine ⟨?_, ?_, i3, i4, ?_, ?_⟩
    · rw [dragCount_append, l5, i1]
    · rw [dropCount_append, i2, l6]
      simp [h2]
    · rw [i5, l1]
    · rw [i6, l2]

/-- A run of ticks from a state with an active pinch and a cleared drop flag
delivers no drag and no drop and preserves the pinch flag, the drop flag, the
listener flag and the drag vector. -/
lemma runTicks_pinch (env : Env) :
    ∀ (n : ℕ) (s : EngState), s.isTouchZoom = true → s.endDrag = false →
      dragCount (runEvents env s (ticks n)).2 = 0 ∧
      dropCount (runEvents env s (ticks n)).2 = 0 ∧
      (runEvents env s (ticks n)).1.isTouchZoom = true ∧
      (runEvents env s (ticks n)).1.endDrag = false ∧
      (runEvents env s (ticks n)).1.listening = s.listening ∧
      (runEvents env s (ticks n)).1.mouseMovement = s.mouseMovement := by
  intro n
  induction n with
  | zero =>
    intro s h1 h2
    exact ⟨rfl, rfl, h1, h2, rfl, rfl⟩
  | succ m ih =>
    intro s h1 h2
    obtain ⟨l1, l2, l3, l4, l5, l6⟩ := tick_spec env s (Or.inr h1)
    have htz : (manageMouseEvents env s).1.isTouchZoom = true := by rw [l2, h1]
    obtain ⟨i1, i2, i3, i4, i5, i6⟩ := ih (manageMouseEvents env s).1 htz l3
    rw [ticks_succ]
    simp only [runEvents, handleEvent_tick]
    refine ⟨?_, ?_, i3, i4, ?_, ?_⟩
    · rw [dragCount_append, l5, i1]
    · rw [dropCount_append, i2, l6]
      simp [h2]
    · rw [i5, l1]
    · rw [i6, l4]

/-- A non-empty run of ticks from a state with a zero drag vector and a set
drop flag delivers no drag and exactly one drop, and leaves the vector zero
and the flag cleared. Needs a drop listener on the screen. -/
lemma runTicks_pending (env : Env) (hd : env.hasOnDrop = true) :
    ∀ (n : ℕ) (s : EngState), s.mouseMovement = ⟨0, 0⟩ → s.endDrag = true → 1 ≤ n →
      dragCount (runEvents env s (ticks n)).2 = 0 ∧
      dropCount (runEvents env s (ticks n)).2 = 1 ∧
      (runEvents env s (ticks n)).1.mouseMovement = ⟨0, 0⟩ ∧
      (runEvents env s (ticks n)).1.endDrag = false ∧
      (runEvents env s (ticks n)).1.listening = s.listening ∧
      (runEvents env s (ticks n)).1.isTouchZoom = s.isTouchZoom := by
  intro n
  cases n with
  | zero =>
    intro s _ _ hn
    exact absurd hn (by norm_num)
  | succ m =>
    intro s h1 h2 _
    obtain ⟨l1, l2, l3, l4, l5, l6⟩ := tick_spec env s (Or.inl h1)
    have hmv : (manageMouseEvents env s).1.mouseMovement = ⟨0, 0⟩ := by rw [l4, h1]
    obtain ⟨i1, i2, i3, i4, i5, i6⟩ := runTicks_quiet env m (manageMouseEvents env s).1 hmv l3
    rw [ticks_succ]
    simp only [runEvents, handleEvent_tick]
    refine ⟨?_, ?_, i3, i4, ?_, ?_⟩
    · rw [dragCount_append, l5, i1]
    · rw [dropCount_append, i2, l6]
      simp [h2, hd]
    · rw [i5, l1]
    · rw [i6, l2]

end Zepr

namespace Zepr

/-- `onMove` only touches the drag vector and the anchor. -/
lemma onMove_fields (env : Env) (s : EngState) (e : PEvent) :
    (onMove env s e).isTouchZoom = s.isTouchZoom ∧
    (onMove env s e).endDrag = s.endDrag ∧
    (onMove env s e).listening = s.listening := by
  unfold onMove
  split
  · split <;> exact ⟨rfl, rfl, rfl⟩
  · exact ⟨rfl, rfl, rfl⟩

/-- `onUp` during an active pinch: the drag vector is zeroed, the listeners
are unregistered and the drag-ended flag is set. -/
lemma onUp_pinch (env : Env) (s : EngState) (e : PEvent) (h : s.isTouchZoom = true) :
    onUp env s e =
      { s with mouseMovement := ⟨0, 0⟩, listening := false, endDrag := true } := by
  have hc : (env.mouseMoveEnabled && !s.isTouchZoom) = false := by
    simp [h]
  simp only [onUp, hc]
  rfl

/-- `onEndZoom` with one remaining touch zeroes the pinch samples and keeps
the pinch flag. -/
lemma onEndZoom_one (s : EngState) (r : Point) :
    onEndZoom s [r] = { s with touchZoomCurrent := 0, touchZoomNext := 0 } := by
  simp only [onEndZoom]
  rw [if_neg]
  simp

/-- `onEndZoom` with no remaining touches zeroes the pinch samples and clears
the pinch flag. -/
lemma onEndZoom_zero (s : EngState) :
    onEndZoom s [] =
      { s with touchZoomCurrent := 0, touchZoomNext := 0, isTouchZoom := false } := by
  simp [onEndZoom]

/-- `onDown` on a single in-viewport touch: records the click, zeroes the drag
vector, anchors the position and registers the listeners; the drop and pinch
flags are untouched. -/
lemma onDown_single (env : Env) (s : EngState) (p pt : Point)
    (hmm : env.mouseMoveEnabled = true)
    (hp : getEventPosition env (PEvent.touch [p]) = some pt) :
    onDown env s (PEvent.touch [p]) =
      { s with
        mouseEvent := some pt
        mouseMovement := ⟨0, 0⟩
        mousePrevious := some pt
        listening := true } := by
  have hlen : (decide (1 < List.length [p])) = false := rfl
  simp only [onDown, hp, hlen, Bool.and_false, Bool.false_eq_true, if_false, hmm, if_true]

/-- Event dispatch of the one-touch start of the pinch scenario. -/
lemma down1_spec (env : Env) (s : EngState) (p pt : Point)
    (hm : env.mouseEnabled = true) (hmm : env.mouseMoveEnabled = true)
    (hp : getEventPosition env (PEvent.touch [p]) = some pt) :
    (handleEvent env s (REvent.touchStart [p])).1.listening = true ∧
    (handleEvent env s (REvent.touchStart [p])).1.mouseMovement = ⟨0, 0⟩ ∧
    (handleEvent env s (REvent.touchStart [p])).1.endDrag = s.endDrag ∧
    (handleEvent env s (REvent.touchStart [p])).1.isTouchZoom = s.isTouchZoom ∧
    (handleEvent env s (REvent.touchStart [p])).2 = [] := by
  simp only [handleEvent, hm, Bool.true_or, if_true, onDown_single env s p pt hmm hp]
  simp

/-- Event dispatch of the two-touch start: whatever the `window.ontouchstart`
truthiness and the mapped position, the drag vector stays zero, the listeners
stay registered and the drop flag is untouched. -/
lemma down2_spec (env : Env) (s : EngState) (q0 q1 : Point)
    (hm : env.mouseEnabled = true) (hmm : env.mouseMoveEnabled = true)
    (h1 : s.mouseMovement = ⟨0, 0⟩) (h2 : s.listening = true) :
    (handleEvent env s (REvent.touchStart [q0, q1])).1.mouseMovement = ⟨0, 0⟩ ∧
    (handleEvent env s (REvent.touchStart [q0, q1])).1.listening = true ∧
    (handleEvent env s (REvent.touchStart [q0, q1])).1.endDrag = s.endDrag ∧
    (handleEvent env s (REvent.touchStart [q0, q1])).2 = [] := by
  simp only [handleEvent, hm, Bool.true_or, if_true]
  simp only [onDown]
  cases hpin : env.zoomEnabled && env.windowTouch && decide (1 < List.length [q0, q1]) with
  | true => simp [hpin, h1, h2]
  | false =>
    cases hp2 : getEventPosition env (PEvent.touch [q0, q1]) with
    | none => simp [hpin, hp2, h1, h2]
    | some pt => simp [hpin, hp2, h1, h2, hmm]

/-- Event dispatch of a two-touch move: the pinch flag is set, the drop flag
and the listener registration are untouched. -/
lemma touchMove2_spec (env : Env) (s : EngState) (t0 t1 : Point)
    (hz : env.zoomEnabled = true) :
    (handleEvent env s (REvent.touchMove [t0, t1])).1.isTouchZoom = true ∧
    (handleEvent env s (REvent.touchMove [t0, t1])).1.endDrag = s.endDrag ∧
    (handleEvent env s (REvent.touchMove [t0, t1])).1.listening = s.listening ∧
    (handleEvent env s (REvent.touchMove [t0, t1])).2 = [] := by
  simp only [handleEvent, hz, if_true]
  have htz : onZoomTouch env s [t0, t1] =
      { s with isTouchZoom := true, touchZoomNext := touchDist env [t0, t1] } := by
    simp only [onZoomTouch]
    rw [if_pos]
    simp
  rw [htz]
  split
  · obtain ⟨f1, f2, f3⟩ := onMove_fields env
      { s with isTouchZoom := true, touchZoomNext := touchDist env [t0, t1] }
      (PEvent.touch [t0, t1])
    exact ⟨f1, f2, f3, trivial⟩
  · exact ⟨rfl, rfl, rfl, trivial⟩

/-- Event dispatch of the first touch end (one touch remains): the drag
vector is zeroed, the listeners are unregistered, the drop flag is set and the
pinch flag stays. -/
lemma end1_spec (env : Env) (s : EngState) (r : Point)
    (hz : env.zoomEnabled = true) (hst : s.isTouchZoom = true) (hl : s.listening = true) :
    (handleEvent env s (REvent.touchEnd [r])).1.mouseMovement = ⟨0, 0⟩ ∧
    (handleEvent env s (REvent.touchEnd [r])).1.endDrag = true ∧
    (handleEvent env s (REvent.touchEnd [r])).1.listening = false ∧
    (handleEvent env s (REvent.touchEnd [r])).1.isTouchZoom = true ∧
    (handleEvent env s (REvent.touchEnd [r])).2 = [] := by
  simp only [handleEvent, hz, if_true, onEndZoom_one]
  set s1 : EngState := { s with touchZoomCurrent := 0, touchZoomNext := 0 } with hs1
  have hl1 : s1.listening = true := hl
  have hst1 : s1.isTouchZoom = true := hst
  rw [if_pos hl1, onUp_pinch env s1 (PEvent.touch [r]) hst1]
  exact ⟨rfl, rfl, rfl, hst1, trivial⟩

/-- Event dispatch of the final touch end, with listeners already removed:
only the pinch bookkeeping changes — the pinch flag is cleared. -/
lemma end0_spec (env : Env) (s : EngState)
    (hz : env.zoomEnabled = true) (hl : s.listening = false) :
    (handleEvent env s (REvent.touchEnd [])).1.isTouchZoom = false ∧
    (handleEvent env s (REvent.touchEnd [])).1.endDrag = s.endDrag ∧
    (handleEvent env s (REvent.touchEnd [])).1.mouseMovement = s.mouseMovement ∧
    (handleEvent env s (REvent.touchEnd [])).1.listening = false ∧
    (handleEvent env s (REvent.touchEnd [])).2 = [] := by
  simp only [handleEvent, hz, if_true, onEndZoom_zero]
  rw [if_neg]
  · exact ⟨rfl, rfl, rfl, hl, trivial⟩
  · simp [hl]

end Zepr

namespace Zepr

/-- The empty run. -/
lemma runEvents_nil (env : Env) (s : EngState) : runEvents env s [] = (s, []) := rfl

/-- Unfolding one event of a run. -/
lemma runEvents_cons (env : Env) (s : EngState) (ev : REvent) (rest : List REvent) :
    runEvents env s (ev :: rest) =
      ((runEvents env (handleEvent env s ev).1 rest).1,
        (handleEvent env s ev).2 ++ (runEvents env (handleEvent env s ev).1 rest).2) := rfl

/-- A run of a concatenation is the two runs in sequence, signals
concatenated. -/
lemma runEvents_append (env : Env) (l1 l2 : List REvent) :
    ∀ s : EngState,
      runEvents env s (l1 ++ l2) =
        ((runEvents env (runEvents env s l1).1 l2).1,
          (runEvents env s l1).2 ++ (runEvents env (runEvents env s l1).1 l2).2) := by
  induction l1 with
  | nil =>
    intro s
    simp [runEvents]
  | cons ev rest ih =>
    intro s
    simp only [List.cons_append, runEvents_cons]
    rw [ih]
    simp [List.append_assoc]

/-- Unfolding one motion element. -/
lemma motionBlock_cons (m : (Point × Point) × ℕ) (rest : List ((Point × Point) × ℕ)) :
    motionBlock (m :: rest) =
      (REvent.touchMove [m.1.1, m.1.2] :: ticks m.2) ++ motionBlock rest := by
  simp [motionBlock]

/-- An empty tick sequence. -/
lemma ticks_zero : ticks 0 = [] := rfl

/-- The motion segment keeps the pinch active, the drop flag cleared and the
listeners registered, and delivers no drag and no drop. -/
lemma runMotion (env : Env) (hz : env.zoomEnabled = true) :
    ∀ (ms : List ((Point × Point) × ℕ)) (s : EngState),
      s.isTouchZoom = true → s.endDrag = false →
      dragCount (runEvents env s (motionBlock ms)).2 = 0 ∧
      dropCount (runEvents env s (motionBlock ms)).2 = 0 ∧
      (runEvents env s (motionBlock ms)).1.isTouchZoom = true ∧
      (runEvents env s (motionBlock ms)).1.endDrag = false ∧
      (runEvents env s (motionBlock ms)).1.listening = s.listening := by
  intro ms
  induction ms with
  | nil =>
    intro s h1 h2
    exact ⟨rfl, rfl, h1, h2, rfl⟩
  | cons m rest ih =>
    intro s h1 h2
    obtain ⟨e1, e2, e3, e4⟩ := touchMove2_spec env s m.1.1 m.1.2 hz
    have hed1 : (handleEvent env s (REvent.touchMove [m.1.1, m.1.2])).1.endDrag = false := by
      rw [e2, h2]
    obtain ⟨t1, t2, t3, t4, t5, t6⟩ :=
      runTicks_pinch env m.2 (handleEvent env s (REvent.touchMove [m.1.1, m.1.2])).1 e1 hed1
    rw [motionBlock_cons, runEvents_append, runEvents_cons, e4]
    simp only [List.nil_append]
    obtain ⟨i1, i2, i3, i4, i5⟩ := ih
      (runEvents env (handleEvent env s (REvent.touchMove [m.1.1, m.1.2])).1 (ticks m.2)).1
      t3 t4
    refine ⟨?_, ?_, i3, i4, ?_⟩
    · rw [dragCount_append, t1, i1]
    · rw [dropCount_append, t2, i2]
    · rw [i5, t5, e3]

end Zepr

namespace Zepr

/-- The pinch prefix (through the two-to-one touch end) from the initial
engine state: no drag and no drop is delivered, and it ends with a zero drag
vector, the drop flag set, the listeners unregistered and the pinch flag still
on. -/
lemma pinchPre_spec (env : Env)
    (hm : env.mouseEnabled = true) (hmm : env.mouseMoveEnabled = true)
    (hz : env.zoomEnabled = true)
    (a b : ℕ) (p pt q0 q1 r : Point) (m0 : (Point × Point) × ℕ)
    (ms : List ((Point × Point) × ℕ))
    (hp : getEventPosition env (PEvent.touch [p]) = some pt) :
    dragCount (runEvents env initEngState (pinchPre a b p q0 q1 r (m0 :: ms))).2 = 0 ∧
    dropCount (runEvents env initEngState (pinchPre a b p q0 q1 r (m0 :: ms))).2 = 0 ∧
    (runEvents env initEngState (pinchPre a b p q0 q1 r (m0 :: ms))).1.mouseMovement =
      ⟨0, 0⟩ ∧
    (runEvents env initEngState (pinchPre a b p q0 q1 r (m0 :: ms))).1.endDrag = true ∧
    (runEvents env initEngState (pinchPre a b p q0 q1 r (m0 :: ms))).1.listening = false ∧
    (runEvents env initEngState (pinchPre a b p q0 q1 r (m0 :: ms))).1.isTouchZoom = true := by
  simp only [pinchPre, motionBlock_cons, runEvents_append, runEvents_cons, runEvents_nil,
    List.append_nil, List.nil_append]
  set sA := (runEvents env initEngState (ticks a)).1 with hsA
  set sB := (handleEvent env sA (REvent.touchStart [p])).1 with hsB
  set sC := (runEvents env sB (ticks b)).1 with hsC
  set sD := (handleEvent env sC (REvent.touchStart [q0, q1])).1 with hsD
  set sE := (handleEvent env sD (REvent.touchMove [m0.1.1, m0.1.2])).1 with hsE
  set sF := (runEvents env sE (ticks m0.2)).1 with hsF
  set sG := (runEvents env sF (motionBlock ms)).1 with hsG
  obtain ⟨a1, a2, a3, a4, a5, a6⟩ := runTicks_quiet env a initEngState rfl rfl
  rw [← hsA] at a3 a4 a5 a6
  obtain ⟨b1, b2, b3, b4, b5⟩ := down1_spec env sA p pt hm hmm hp
  rw [← hsB] at b1 b2 b3 b4
  have hedB : sB.endDrag = false := by rw [b3, a4]
  obtain ⟨c1, c2, c3, c4, c5, c6⟩ := runTicks_quiet env b sB b2 hedB
  rw [← hsC] at c3 c4 c5 c6
  have hlsC : sC.listening = true := by rw [c5, b1]
  obtain ⟨d1, d2, d3, d4⟩ := down2_spec env sC q0 q1 hm hmm c3 hlsC
  rw [← hsD] at d1 d2 d3
  have hedD : sD.endDrag = false := by rw [d3, c4]
  obtain ⟨e1, e2, e3, e4⟩ := touchMove2_spec env sD m0.1.1 m0.1.2 hz
  rw [← hsE] at e1 e2 e3
  have hedE : sE.endDrag = false := by rw [e2, hedD]
  have hlsE : sE.listening = true := by rw [e3, d2]
  obtain ⟨f1, f2, f3, f4, f5, f6⟩ := runTicks_pinch env m0.2 sE e1 hedE
  rw [← hsF] at f3 f4 f5 f6
  have hlsF : sF.listening = true := by rw [f5, hlsE]
  obtain ⟨g1, g2, g3, g4, g5⟩ := runMotion env hz ms sF f3 f4
  rw [← hsG] at g3 g4 g5
  have hlsG : sG.listening = true := by rw [g5, hlsF]
  obtain ⟨h1, h2, h3, h4, h5⟩ := end1_spec env sG r hz g3 hlsG
  refine ⟨?_, ?_, h1, h2, h3, h4⟩
  · rw [b5, d4, e4, h5]
    simp only [dragCount_append, a1, c1, f1, g1]
    simp [dragCount]
  · rw [b5, d4, e4, h5]
    simp only [dropCount_append, a2, c2, f2, g2]
    simp [dropCount]

end Zepr

namespace Zepr

/-- Claim C6: with mouse, drag and zoom control enabled and a drop listener
present, no tick ever delivers a drag signal while `isTouchZoom` is set (first
conjunct, over every state, even with a non-zero accumulated drag vector);
and every event sequence of the form one touch, then two touches, then
two-touch motion, then the touches ending — with ticks interleaved anywhere
and at least one tick after the touch end — delivers no drag signal at all
and exactly one drop signal. -/
theorem pinch_gesture_no_drag_single_drop (env : Env)
    (hm : env.mouseEnabled = true) (hmm : env.mouseMoveEnabled = true)
    (hz : env.zoomEnabled = true) (hd : env.hasOnDrop = true)
    (a b e f : ℕ) (p pt q0 q1 r : Point) (m0 : (Point × Point) × ℕ)
    (ms : List ((Point × Point) × ℕ))
    (hp : getEventPosition env (PEvent.touch [p]) = some pt)
    (hef : 1 ≤ e + f) :
    (∀ s : EngState, s.isTouchZoom = true →
      dragCount (manageMouseEvents env s).2 = 0) ∧
    dragCount (runEvents env initEngState (pinchTrace a b e f p q0 q1 r (m0 :: ms))).2 = 0 ∧
    dropCount (runEvents env initEngState (pinchTrace a b e f p q0 q1 r (m0 :: ms))).2 = 1 := by
  refine ⟨fun s hs => (tick_spec env s (Or.inr hs)).2.2.2.2.1, ?_⟩
  obtain ⟨p1, p2, p3, p4, p5, p6⟩ := pinchPre_spec env hm hmm hz a b p pt q0 q1 r m0 ms hp
  simp only [pinchTrace, runEvents_append, runEvents_cons, runEvents_nil,
    List.append_nil, List.nil_append]
  set sP := (runEvents env initEngState (pinchPre a b p q0 q1 r (m0 :: ms))).1 with hsP
  cases e with
  | zero =>
    simp only [ticks_zero, runEvents_nil, List.nil_append]
    obtain ⟨k1, k2, k3, k4, k5⟩ := end0_spec env sP hz p5
    set sK := (handleEvent env sP (REvent.touchEnd [])).1 with hsK
    have hkmv : sK.mouseMovement = ⟨0, 0⟩ := by rw [k3, p3]
    have hked : sK.endDrag = true := by rw [k2, p4]
    have hf1 : 1 ≤ f := by omega
    obtain ⟨l1, l2, l3, l4, l5, l6⟩ := runTicks_pending env hd f sK hkmv hked hf1
    constructor
    · rw [k5]
      simp only [dragCount_append, p1, l1]
      simp [dragCount]
    · rw [k5]
      simp only [dropCount_append, p2, l2]
      simp [dropCount]
  | succ n =>
    obtain ⟨l1, l2, l3, l4, l5, l6⟩ := runTicks_pending env hd (n + 1) sP p3 p4 (by omega)
    set sL := (runEvents env sP (ticks (n + 1))).1 with hsL
    have hlsL : sL.listening = false := by rw [l5, p5]
    obtain ⟨k1, k2, k3, k4, k5⟩ := end0_spec env sL hz hlsL
    set sK := (handleEvent env sL (REvent.touchEnd [])).1 with hsK
    have hkmv : sK.mouseMovement = ⟨0, 0⟩ := by rw [k3, l3]
    have hked : sK.endDrag = false := by rw [k2, l4]
    obtain ⟨q1, q2, q3, q4, q5, q6⟩ := runTicks_quiet env f sK hkmv hked
    constructor
    · rw [k5]
      simp only [dragCount_append, p1, l1, q1]
      simp [dragCount]
    · rw [k5]
      simp only [dropCount_append, p2, l2, q2]
      simp [dropCount]

/-- Claim C6 witness: a concrete pinch — touch at (50,50), second touch,
one two-touch move, touches end, with one tick in every gap — delivers no
drag and exactly one drop. -/
theorem pinch_gesture_witness :
    (∀ s : EngState, s.isTouchZoom = true →
      dragCount (manageMouseEvents boundaryEnv s).2 = 0) ∧
    dragCount (runEvents boundaryEnv initEngState
      (pinchTrace 1 1 1 1 ⟨50, 50⟩ ⟨40, 40⟩ ⟨60, 60⟩ ⟨45, 45⟩
        [((⟨41, 41⟩, ⟨59, 59⟩), 1)])).2 = 0 ∧
    dropCount (runEvents boundaryEnv initEngState
      (pinchTrace 1 1 1 1 ⟨50, 50⟩ ⟨40, 40⟩ ⟨60, 60⟩ ⟨45, 45⟩
        [((⟨41, 41⟩, ⟨59, 59⟩), 1)])).2 = 1 :=
  pinch_gesture_no_drag_single_drop boundaryEnv rfl rfl rfl rfl 1 1 1 1
    ⟨50, 50⟩ ⟨50, 50⟩ ⟨40, 40⟩ ⟨60, 60⟩ ⟨45, 45⟩ ((⟨41, 41⟩, ⟨59, 59⟩), 1) []
    (by norm_num [getEventPosition, normX, normY, rawXY, boundaryEnv]) (by norm_num)

end Zepr
